import Mathlib

/-!
Shallow embedding of the DTLS client association of this repository
(src/association.h, src/association.cpp).  The class DtlsAssociation owns a
QUdpSocket, a QDtls engine, a QTimer for keepalive pings and an unsigned
ping counter, and reacts to Qt signals.  Each slot is modelled as a pure
function from the association's mutable state together with an oracle of
engine/transport results (the return values the external QDtls engine and
the socket produce during that slot) to the new state and the list of
observable actions the slot performs, in source order: signal emissions,
engine invocations, timer commands, socket commands.
-/

namespace DtlsClient

/-- Modulus of the C++ type of the ping counter: the field is declared
unsigned int (association.h line 37), which is 32 bits wide on every
platform Qt supports, so increments wrap modulo 2 to the 32. -/
def uintMod : Nat := 2 ^ 32

/-- Spec-level state label (spec section 4.1).  The source has no explicit
state variable; this ghost field records the spec's classification of the
branch the code is executing, so that claims phrased in terms of the spec's
state machine are statable.  It never influences any observable action. -/
inductive SpecState
  | Idle
  | ConnectingTransport
  | Handshaking
  | Connected
  | Closed
  | Failed
deriving DecidableEq

/-- Identity of each user-visible message emitted by the source; each
constructor stands for one tr()/format string in association.cpp (arguments
such as the association name or crypto.dtlsErrorString() are part of the
formatted text and are not modelled separately). -/
inductive Msg
  /-- connecting UDP socket first... (line 30) -/
  | connectingUdpSocketFirst
  /-- failed to start a handshake - dtlsErrorString (line 35) -/
  | failedToStartHandshake
  /-- starting a handshake (line 38) -/
  | startingHandshake
  /-- UDP socket is now in connected state, continue with handshake... (line 43) -/
  | udpSocketNowConnected
  /-- spurious read notification? (line 53) -/
  | spuriousRead
  /-- shutdown alert received (line 64) -/
  | shutdownAlertReceived
  /-- zero-length datagram received? (line 69) -/
  | zeroLengthDatagram
  /-- handshake error - dtlsErrorString (line 72) -/
  | handshakeError
  /-- encrypted connection established! (line 77) -/
  | encryptedEstablished
  /-- continuing with handshake... (line 81) -/
  | continuingHandshake
  /-- handshake timeout, trying to re-transmit (line 87) -/
  | handshakeTimeoutRetransmit
  /-- failed to re-transmit - dtlsErrorString (line 89) -/
  | failedToRetransmit
  /-- providing pre-shared key... (line 96) -/
  | providingPsk
  /-- failed to send a ping - dtlsErrorString (line 106) -/
  | failedToSendPing
deriving DecidableEq

/-- One emitted Qt signal of DtlsAssociation (association.h lines 18-23).
The serverResponse signal also carries the constant association name, which
is not part of the model's state and is omitted. -/
inductive Event
  | info (msg : Msg)
  | warning (msg : Msg)
  | error (msg : Msg)
  | response (dgram plainText : List Nat)
deriving DecidableEq

/-- One observable action performed by a slot, in program order. -/
inductive Action
  /-- a signal emission -/
  | emit (e : Event)
  /-- crypto.doHandshake(&socket) (arg none) or crypto.doHandshake(&socket, dgram) (arg some dgram) -/
  | engineDoHandshake (dgram : Option (List Nat))
  /-- crypto.handleTimeout(&socket) -/
  | engineHandleTimeout
  /-- crypto.decryptDatagram(&socket, dgram) -/
  | engineDecrypt (dgram : List Nat)
  /-- crypto.writeDatagramEncrypted(&socket, ping payload embedding seq); written is the returned byte count -/
  | sendPing (seq : Nat) (written : Int)
  /-- crypto.shutdown(&socket) -/
  | engineShutdown
  /-- socket.close() -/
  | socketClose
  /-- pingTimer.start() -/
  | timerStart
  /-- pingTimer.stop() -/
  | timerStop
  /-- connect(&socket, connected, this, udpSocketConnected): registers one more resume handler (line 31) -/
  | connectResumeHandler
  /-- the auth.setIdentity and auth.setPreSharedKey calls in pskRequired (lines 97-98) -/
  | setPskCredentials
deriving DecidableEq

/-- Mutable state of one DtlsAssociation, plus the spec-level ghost label. -/
structure AssocState where
  /-- the unsigned ping counter (association.h line 37); always below uintMod -/
  ping : Nat
  /-- whether pingTimer is active -/
  pingTimerActive : Bool
  /-- whether the UDP socket is open (closed by socket.close() on remote shutdown) -/
  socketOpen : Bool
  /-- how many times the socket's connected signal was connected to udpSocketConnected -/
  connectedHandlers : Nat
  /-- ghost spec-level state label, see SpecState -/
  state : SpecState
deriving DecidableEq

/-- The freshly constructed association: ping = 0, timer not started,
socket opened by connectToHost in the constructor, no resume handler
registered yet.  Spec state Idle. -/
def initState : AssocState :=
  { ping := 0
    pingTimerActive := false
    socketOpen := true
    connectedHandlers := 0
    state := SpecState.Idle }

/-- The external results consumed during one readyRead slot: what the
socket read returns and what the QDtls engine answers at each call site.
Fields are listed in the order the source consults them. -/
structure ReadOracle where
  /-- socket.readDatagram return value (line 51) -/
  bytesRead : Int
  /-- contents of dgram after resize(bytesRead) (line 56) -/
  dgram : List Nat
  /-- crypto.isConnectionEncrypted() at line 57 -/
  isEncrypted : Bool
  /-- crypto.decryptDatagram result (line 58) -/
  plainText : List Nat
  /-- crypto.dtlsError() == QDtlsError::RemoteClosedConnectionError (line 63) -/
  remoteClosed : Bool
  /-- crypto.doHandshake(&socket, dgram) result (line 71) -/
  handshakeOk : Bool
  /-- crypto.isConnectionEncrypted() at line 76, after the handshake step -/
  encryptedAfter : Bool
  /-- crypto.writeDatagramEncrypted result inside the immediate pingTimeout call (line 104) -/
  pingWritten : Int
deriving DecidableEq

/-- DtlsAssociation::pingTimeout (association.cpp lines 101-112): send the
encrypted ping embedding the current counter; on a nonpositive written
count emit the error, stop the timer (ghost: Failed) and return; otherwise
increment the counter (unsigned arithmetic, so modulo uintMod). -/
def pingTimeout (written : Int) (s : AssocState) : AssocState × List Action :=
  if written ≤ 0 then
    ({ s with pingTimerActive := false, state := SpecState.Failed },
     [Action.sendPing s.ping written,
      Action.emit (Event.error Msg.failedToSendPing),
      Action.timerStop])
  else
    ({ s with ping := (s.ping + 1) % uintMod },
     [Action.sendPing s.ping written])

/-- DtlsAssociation::startHandshake (lines 27-39).  socketConnected is
socket.state() == ConnectedState; hsOk is the crypto.doHandshake(&socket)
result when reached.  While the socket is not connected the slot only
emits the info message and registers one more resume handler (ghost:
ConnectingTransport); otherwise it performs the initial handshake step
(ghost: Handshaking on success, Failed on failure). -/
def startHandshake (socketConnected : Bool) (hsOk : Bool) (s : AssocState) :
    AssocState × List Action :=
  if !socketConnected then
    ({ s with connectedHandlers := s.connectedHandlers + 1,
              state := SpecState.ConnectingTransport },
     [Action.emit (Event.info Msg.connectingUdpSocketFirst),
      Action.connectResumeHandler])
  else if !hsOk then
    ({ s with state := SpecState.Failed },
     [Action.engineDoHandshake none,
      Action.emit (Event.error Msg.failedToStartHandshake)])
  else
    ({ s with state := SpecState.Handshaking },
     [Action.engineDoHandshake none,
      Action.emit (Event.info Msg.startingHandshake)])

/-- DtlsAssociation::udpSocketConnected (lines 41-46): emit the info
message, then call startHandshake; the socket is connected when this slot
runs, so the socketConnected test inside startHandshake is true. -/
def udpSocketConnected (hsOk : Bool) (s : AssocState) : AssocState × List Action :=
  ((startHandshake true hsOk s).1,
   Action.emit (Event.info Msg.udpSocketNowConnected) :: (startHandshake true hsOk s).2)

/-- Qt semantics of one emission of the socket's connected signal: every
registered connection (one per connect call in startHandshake) invokes the
udpSocketConnected slot once, in registration order; oks lists the
doHandshake results those invocations observe. -/
def fireHandlers : Nat → List Bool → AssocState → AssocState × List Action
  | 0, _, s => (s, [])
  | n + 1, oks, s =>
    ((fireHandlers n oks.tail (udpSocketConnected (oks.headD true) s).1).1,
     (udpSocketConnected (oks.headD true) s).2 ++
       (fireHandlers n oks.tail (udpSocketConnected (oks.headD true) s).1).2)

/-- One delivery of the transport-connected notification: fires every
currently registered resume handler. -/
def socketConnectedSignal (oks : List Bool) (s : AssocState) : AssocState × List Action :=
  fireHandlers s.connectedHandlers oks s

/-- DtlsAssociation::readyRead (lines 48-83), branch for branch in source
order.  The oracle supplies each external result at the call site where the
source consults it. -/
def readyRead (o : ReadOracle) (s : AssocState) : AssocState × List Action :=
  if o.bytesRead ≤ 0 then
    (s, [Action.emit (Event.warning Msg.spuriousRead)])
  else if o.isEncrypted then
    if o.plainText.length ≠ 0 then
      (s, [Action.engineDecrypt o.dgram,
           Action.emit (Event.response o.dgram o.plainText)])
    else if o.remoteClosed then
      ({ s with socketOpen := false, pingTimerActive := false,
                state := SpecState.Closed },
       [Action.engineDecrypt o.dgram,
        Action.emit (Event.error Msg.shutdownAlertReceived),
        Action.socketClose,
        Action.timerStop])
    else
      (s, [Action.engineDecrypt o.dgram,
           Action.emit (Event.warning Msg.zeroLengthDatagram)])
  else
    if !o.handshakeOk then
      ({ s with state := SpecState.Failed },
       [Action.engineDoHandshake (some o.dgram),
        Action.emit (Event.error Msg.handshakeError)])
    else if o.encryptedAfter then
      let p := pingTimeout o.pingWritten
        { s with pingTimerActive := true, state := SpecState.Connected }
      (p.1,
       Action.engineDoHandshake (some o.dgram) ::
       Action.emit (Event.info Msg.encryptedEstablished) ::
       Action.timerStart :: p.2)
    else
      (s, [Action.engineDoHandshake (some o.dgram),
           Action.emit (Event.info Msg.continuingHandshake)])

/-- DtlsAssociation::handshakeTimeout (lines 85-91): the warning is emitted
unconditionally, then crypto.handleTimeout(&socket) runs; on failure the
error is emitted (ghost: Failed). -/
def handshakeTimeout (ok : Bool) (s : AssocState) : AssocState × List Action :=
  if ok then
    (s, [Action.emit (Event.warning Msg.handshakeTimeoutRetransmit),
         Action.engineHandleTimeout])
  else
    ({ s with state := SpecState.Failed },
     [Action.emit (Event.warning Msg.handshakeTimeoutRetransmit),
      Action.engineHandleTimeout,
      Action.emit (Event.error Msg.failedToRetransmit)])

/-- DtlsAssociation::pskRequired (lines 93-99): emit the info message and
hand the identity and pre-shared key to the authenticator. -/
def pskRequired (s : AssocState) : AssocState × List Action :=
  (s, [Action.emit (Event.info Msg.providingPsk), Action.setPskCredentials])

/-- DtlsAssociation::~DtlsAssociation (lines 21-25): call
crypto.shutdown(&socket) exactly when crypto.isConnectionEncrypted(). -/
def destructorActions (encrypted : Bool) : List Action :=
  if encrypted then [Action.engineShutdown] else []

/-- One external stimulus delivered by the event loop. -/
inductive Input
  /-- the user calls startHandshake; the Bools are the socket-connected
  test and the doHandshake result -/
  | callStartHandshake (socketConnected : Bool) (hsOk : Bool)
  /-- the socket reports connected; oks are the doHandshake results the
  resume handlers observe -/
  | socketConnected (oks : List Bool)
  /-- an inbound datagram is ready (delivered only while the socket is open) -/
  | datagram (o : ReadOracle)
  /-- the keepalive timer fires (delivered only while the timer is active) -/
  | pingTimerFire (written : Int)
  /-- the engine's handshakeTimeout signal fires -/
  | dtlsHandshakeTimeout (ok : Bool)
  /-- the engine requests the pre-shared key -/
  | pskRequest
deriving DecidableEq

/-- Dispatch of one stimulus.  A closed socket emits no readyRead and an
inactive QTimer does not fire, so those inputs are no-ops then. -/
def step (s : AssocState) (i : Input) : AssocState × List Action :=
  match i with
  | Input.callStartHandshake c ok => startHandshake c ok s
  | Input.socketConnected oks => socketConnectedSignal oks s
  | Input.datagram o => if s.socketOpen then readyRead o s else (s, [])
  | Input.pingTimerFire w =>
      if s.pingTimerActive then pingTimeout w s else (s, [])
  | Input.dtlsHandshakeTimeout ok => handshakeTimeout ok s
  | Input.pskRequest => pskRequired s

/-- Run of the event loop over a list of stimuli, concatenating the
observable actions. -/
def run (s : AssocState) : List Input → AssocState × List Action
  | [] => (s, [])
  | i :: is =>
    ((run (step s i).1 is).1, (step s i).2 ++ (run (step s i).1 is).2)

/-- The ping sequence numbers embedded in the sends of an action list, in
order, one per writeDatagramEncrypted call (successful or not). -/
def sentSeqs (acts : List Action) : List Nat :=
  acts.filterMap fun a =>
    match a with
    | Action.sendPing q _ => some q
    | _ => none

/-- Every writeDatagramEncrypted call in the action list reported a
positive byte count (the claim hypothesis that every keepalive send
succeeds). -/
def sendsOk (acts : List Action) : Bool :=
  acts.all fun a =>
    match a with
    | Action.sendPing _ w => decide (0 < w)
    | _ => true

/-- Whether a stimulus is consistent with the engine already being in its
encrypted state: a datagram stimulus must carry an encrypted-engine oracle,
every other stimulus qualifies. -/
def inputEnc (i : Input) : Bool :=
  match i with
  | Input.datagram o => o.isEncrypted
  | _ => true

/-- Every datagram stimulus in the trace finds the engine already
encrypted; this holds for every trace after the handshake has completed,
because QDtls enters its encrypted sub-state at most once and never leaves
it while the association lives (spec section 3). -/
def allEncrypted (tr : List Input) : Bool :=
  tr.all inputEnc

/-- Number of handshake-start attempts (crypto.doHandshake calls) recorded
in an action list. -/
def countStarts (acts : List Action) : Nat :=
  acts.countP fun a =>
    match a with
    | Action.engineDoHandshake _ => true
    | _ => false

/-- Number of resume-handler invocations (udpSocketConnected entries,
recognised by their leading info message) recorded in an action list. -/
def countResumes (acts : List Action) : Nat :=
  acts.countP fun a => decide (a = Action.emit (Event.info Msg.udpSocketNowConnected))

/-- Oracle of a datagram that completes the handshake in one step and whose
immediate ping send succeeds. -/
def oHs : ReadOracle :=
  { bytesRead := 1, dgram := [], isEncrypted := false, plainText := [],
    remoteClosed := false, handshakeOk := true, encryptedAfter := true,
    pingWritten := 1 }

/-- Oracle of an encrypted datagram carrying application data. -/
def oResp : ReadOracle :=
  { bytesRead := 3, dgram := [1, 2, 3], isEncrypted := true, plainText := [7, 8],
    remoteClosed := false, handshakeOk := true, encryptedAfter := false,
    pingWritten := 0 }

/-- Oracle of an encrypted datagram that decrypts empty with the engine
reporting RemoteClosedConnectionError. -/
def oClose : ReadOracle :=
  { bytesRead := 2, dgram := [9], isEncrypted := true, plainText := [],
    remoteClosed := true, handshakeOk := true, encryptedAfter := false,
    pingWritten := 0 }

/-- Oracle of a read notification whose readDatagram returns 0. -/
def oSpur : ReadOracle :=
  { bytesRead := 0, dgram := [], isEncrypted := true, plainText := [],
    remoteClosed := false, handshakeOk := true, encryptedAfter := false,
    pingWritten := 0 }

/-- Oracle of a mid-handshake datagram: the step succeeds but the engine is
still not encrypted. -/
def oHsStep : ReadOracle :=
  { bytesRead := 1, dgram := [4], isEncrypted := false, plainText := [],
    remoteClosed := false, handshakeOk := true, encryptedAfter := false,
    pingWritten := 0 }

/-- Witness trace for the amended C1: handshake completes (ping 0 sent),
then two timer ticks (pings 1 and 2), every send succeeding. -/
def trW : List Input :=
  [Input.datagram oHs, Input.pingTimerFire 1, Input.pingTimerFire 1]

/-- Counterexample trace for C1 as stated: the handshake completes (ping 0
sent), then the timer fires 2 to the 32 times with every send succeeding;
the unsigned counter wraps, so the last sequence number sent is 0 again. -/
def cexTrace : List Input :=
  Input.datagram oHs :: List.replicate uintMod (Input.pingTimerFire 1)

/-- Witness trace for C3: after a failed ping the timer fires twice more
and an encrypted datagram arrives; nothing is sent. -/
def trAfterFail : List Input :=
  [Input.pingTimerFire 1, Input.datagram oResp, Input.pingTimerFire 1]

/-- Witness state for C3: a Connected association with 5 pings sent and
the keepalive timer running. -/
def sConn : AssocState :=
  { ping := 5
    pingTimerActive := true
    socketOpen := true
    connectedHandlers := 0
    state := SpecState.Connected }

theorem uintMod_pos : 0 < uintMod := by
  norm_num [uintMod]

theorem sentSeqs_append (a b : List Action) :
    sentSeqs (a ++ b) = sentSeqs a ++ sentSeqs b :=
  List.filterMap_append a b _

theorem sendsOk_append (a b : List Action) :
    sendsOk (a ++ b) = (sendsOk a && sendsOk b) :=
  List.all_append

theorem pingTimeout_fail {w : Int} (s : AssocState) (h : w ≤ 0) :
    pingTimeout w s =
      ({ s with pingTimerActive := false, state := SpecState.Failed },
       [Action.sendPing s.ping w,
        Action.emit (Event.error Msg.failedToSendPing),
        Action.timerStop]) := by
  simp [pingTimeout, h]

theorem pingTimeout_succ {w : Int} (s : AssocState) (h : 0 < w) :
    pingTimeout w s =
      ({ s with ping := (s.ping + 1) % uintMod },
       [Action.sendPing s.ping w]) := by
  simp [pingTimeout, not_le.mpr h]

theorem readyRead_spurious {o : ReadOracle} (s : AssocState) (h : o.bytesRead ≤ 0) :
    readyRead o s = (s, [Action.emit (Event.warning Msg.spuriousRead)]) := by
  simp [readyRead, h]

theorem readyRead_response {o : ReadOracle} (s : AssocState) (h1 : 0 < o.bytesRead)
    (h2 : o.isEncrypted = true) (h3 : o.plainText ≠ []) :
    readyRead o s =
      (s, [Action.engineDecrypt o.dgram,
           Action.emit (Event.response o.dgram o.plainText)]) := by
  simp [readyRead, not_le.mpr h1, h2, List.length_eq_zero, h3]

theorem readyRead_remoteClose {o : ReadOracle} (s : AssocState) (h1 : 0 < o.bytesRead)
    (h2 : o.isEncrypted = true) (h3 : o.plainText = []) (h4 : o.remoteClosed = true) :
    readyRead o s =
      ({ s with socketOpen := false, pingTimerActive := false,
                state := SpecState.Closed },
       [Action.engineDecrypt o.dgram,
        Action.emit (Event.error Msg.shutdownAlertReceived),
        Action.socketClose,
        Action.timerStop]) := by
  simp [readyRead, not_le.mpr h1, h2, h3, h4]

theorem readyRead_emptyWarn {o : ReadOracle} (s : AssocState) (h1 : 0 < o.bytesRead)
    (h2 : o.isEncrypted = true) (h3 : o.plainText = []) (h4 : o.remoteClosed = false) :
    readyRead o s =
      (s, [Action.engineDecrypt o.dgram,
           Action.emit (Event.warning Msg.zeroLengthDatagram)]) := by
  simp [readyRead, not_le.mpr h1, h2, h3, h4]

theorem readyRead_hsFail {o : ReadOracle} (s : AssocState) (h1 : 0 < o.bytesRead)
    (h2 : o.isEncrypted = false) (h3 : o.handshakeOk = false) :
    readyRead o s =
      ({ s with state := SpecState.Failed },
       [Action.engineDoHandshake (some o.dgram),
        Action.emit (Event.error Msg.handshakeError)]) := by
  simp [readyRead, not_le.mpr h1, h2, h3]

theorem readyRead_hsDone {o : ReadOracle} (s : AssocState) (h1 : 0 < o.bytesRead)
    (h2 : o.isEncrypted = false) (h3 : o.handshakeOk = true) (h4 : o.encryptedAfter = true) :
    readyRead o s =
      ((pingTimeout o.pingWritten
          { s with pingTimerActive := true, state := SpecState.Connected }).1,
       Action.engineDoHandshake (some o.dgram) ::
       Action.emit (Event.info Msg.encryptedEstablished) ::
       Action.timerStart ::
       (pingTimeout o.pingWritten
          { s with pingTimerActive := true, state := SpecState.Connected }).2) := by
  simp [readyRead, not_le.mpr h1, h2, h3, h4]

theorem readyRead_hsCont {o : ReadOracle} (s : AssocState) (h1 : 0 < o.bytesRead)
    (h2 : o.isEncrypted = false) (h3 : o.handshakeOk = true) (h4 : o.encryptedAfter = false) :
    readyRead o s =
      (s, [Action.engineDoHandshake (some o.dgram),
           Action.emit (Event.info Msg.continuingHandshake)]) := by
  simp [readyRead, not_le.mpr h1, h2, h3, h4]

/-- Claim C4 (confirmed): on every retransmission-timer expiry the engine's
timeout-handling operation crypto.handleTimeout is invoked; when it
succeeds the association state is entirely unchanged (in particular it
stays Handshaking) and the slot's actions are exactly one warning
("retransmitting") followed by the engine call; when it fails the slot
additionally emits one error citing the engine's failure reason (the
failed-to-re-transmit message formats crypto.dtlsErrorString) and the
association transitions to Failed. -/
theorem c4_handshake_timeout (s : AssocState) (ok : Bool) :
    Action.engineHandleTimeout ∈ (handshakeTimeout ok s).2 ∧
    (ok = true →
      handshakeTimeout ok s =
        (s, [Action.emit (Event.warning Msg.handshakeTimeoutRetransmit),
             Action.engineHandleTimeout])) ∧
    (ok = false →
      handshakeTimeout ok s =
        ({ s with state := SpecState.Failed },
         [Action.emit (Event.warning Msg.handshakeTimeoutRetransmit),
          Action.engineHandleTimeout,
          Action.emit (Event.error Msg.failedToRetransmit)])) := by
  cases ok <;> simp [handshakeTimeout]

/-- Witness for C4 at a concrete state: a successful retransmission leaves
the state alone and emits exactly the warning and the engine call. -/
theorem c4_handshake_timeout_witness :
    handshakeTimeout true initState =
      (initState, [Action.emit (Event.warning Msg.handshakeTimeoutRetransmit),
                   Action.engineHandleTimeout]) :=
  (c4_handshake_timeout initState true).2.1 rfl

/-- Claim C5 (confirmed): while the engine is encrypted, an inbound
datagram that decrypts to an empty plaintext with the engine reporting
RemoteClosedConnectionError makes readyRead emit exactly one error event,
close the socket, stop the keepalive timer, and enter the terminal Closed
state; no other action is taken. -/
theorem c5_remote_close (o : ReadOracle) (s : AssocState) (h1 : 0 < o.bytesRead)
    (h2 : o.isEncrypted = true) (h3 : o.plainText = []) (h4 : o.remoteClosed = true) :
    readyRead o s =
      ({ s with socketOpen := false, pingTimerActive := false,
                state := SpecState.Closed },
       [Action.engineDecrypt o.dgram,
        Action.emit (Event.error Msg.shutdownAlertReceived),
        Action.socketClose,
        Action.timerStop]) :=
  readyRead_remoteClose s h1 h2 h3 h4

/-- Witness for C5 at the concrete remote-close oracle. -/
theorem c5_remote_close_witness :
    readyRead oClose initState =
      ({ initState with socketOpen := false, pingTimerActive := false,
                        state := SpecState.Closed },
       [Action.engineDecrypt oClose.dgram,
        Action.emit (Event.error Msg.shutdownAlertReceived),
        Action.socketClose,
        Action.timerStop]) :=
  c5_remote_close oClose initState (by decide) (by decide) (by decide) (by decide)

/-- Claim C6 (confirmed): the destructor calls crypto.shutdown on the
socket exactly when crypto.isConnectionEncrypted() holds at destruction
time, and performs no action at all otherwise. -/
theorem c6_destructor (e : Bool) :
    (Action.engineShutdown ∈ destructorActions e ↔ e = true) ∧
    (e = false → destructorActions e = []) := by
  cases e <;> simp [destructorActions]

/-- Witness for C6: destroying with the engine not encrypted performs no
action. -/
theorem c6_destructor_witness : destructorActions false = [] :=
  (c6_destructor false).2 rfl

/-- Claim C7 (confirmed): while the engine is encrypted, an inbound
datagram whose decryption yields a non-empty plaintext makes readyRead
perform exactly the decrypt call and one response event carrying the raw
datagram bytes and the plaintext; the state, including the timer, is
returned unchanged and no other event is emitted. -/
theorem c7_response (o : ReadOracle) (s : AssocState) (h1 : 0 < o.bytesRead)
    (h2 : o.isEncrypted = true) (h3 : o.plainText ≠ []) :
    readyRead o s =
      (s, [Action.engineDecrypt o.dgram,
           Action.emit (Event.response o.dgram o.plainText)]) :=
  readyRead_response s h1 h2 h3

/-- Witness for C7 at the concrete application-data oracle. -/
theorem c7_response_witness :
    readyRead oResp initState =
      (initState, [Action.engineDecrypt oResp.dgram,
                   Action.emit (Event.response oResp.dgram oResp.plainText)]) :=
  c7_response oResp initState (by decide) (by decide) (by decide)

/-- Claim C8 (confirmed): a read notification whose readDatagram call
returns zero or a negative length makes readyRead emit exactly one warning
("spurious read") and nothing else: the state is returned unchanged and no
engine call, timer command or further event occurs. -/
theorem c8_spurious (o : ReadOracle) (s : AssocState) (h : o.bytesRead ≤ 0) :
    readyRead o s = (s, [Action.emit (Event.warning Msg.spuriousRead)]) :=
  readyRead_spurious s h

/-- Witness for C8 at the concrete zero-byte read oracle. -/
theorem c8_spurious_witness :
    readyRead oSpur initState =
      (initState, [Action.emit (Event.warning Msg.spuriousRead)]) :=
  c8_spurious oSpur initState (by decide)

/-- Claim C9 (confirmed): a response event can only come out of the
encrypted branch of readyRead, and a datagram processed while the engine
is not encrypted is fed exactly to crypto.doHandshake: it is never
decrypted and never produces a response event. -/
theorem c9_response_only_encrypted (o : ReadOracle) (s : AssocState) :
    ((∃ d p, Action.emit (Event.response d p) ∈ (readyRead o s).2) →
      o.isEncrypted = true) ∧
    (o.isEncrypted = false → 0 < o.bytesRead →
      Action.engineDoHandshake (some o.dgram) ∈ (readyRead o s).2 ∧
      (∀ d, Action.engineDecrypt d ∉ (readyRead o s).2) ∧
      (∀ d p, Action.emit (Event.response d p) ∉ (readyRead o s).2)) := by
  constructor
  · rintro ⟨d, p, hmem⟩
    by_contra hne
    have h2 : o.isEncrypted = false := by
      cases h : o.isEncrypted
      · rfl
      · exact absurd h hne
    by_cases h1 : o.bytesRead ≤ 0
    · rw [readyRead_spurious s h1] at hmem
      simp at hmem
    · replace h1 : 0 < o.bytesRead := lt_of_not_le h1
      cases h3 : o.handshakeOk
      · rw [readyRead_hsFail s h1 h2 h3] at hmem
        simp at hmem
      · cases h4 : o.encryptedAfter
        · rw [readyRead_hsCont s h1 h2 h3 h4] at hmem
          simp at hmem
        · rw [readyRead_hsDone s h1 h2 h3 h4] at hmem
          by_cases h5 : o.pingWritten ≤ 0
          · rw [pingTimeout_fail _ h5] at hmem
            simp at hmem
          · rw [pingTimeout_succ _ (lt_of_not_le h5)] at hmem
            simp at hmem
  · intro h2 h1
    cases h3 : o.handshakeOk
    · rw [readyRead_hsFail s h1 h2 h3]
      simp
    · cases h4 : o.encryptedAfter
      · rw [readyRead_hsCont s h1 h2 h3 h4]
        simp
      · rw [readyRead_hsDone s h1 h2 h3 h4]
        by_cases h5 : o.pingWritten ≤ 0
        · rw [pingTimeout_fail _ h5]
          simp
        · rw [pingTimeout_succ _ (lt_of_not_le h5)]
          simp

/-- Witness for C9: a response event out of an encrypted datagram forces
the oracle encrypted, and a handshake datagram is fed only to
doHandshake. -/
theorem c9_response_only_encrypted_witness :
    oResp.isEncrypted = true ∧
    Action.engineDoHandshake (some oHsStep.dgram) ∈ (readyRead oHsStep initState).2 :=
  ⟨(c9_response_only_encrypted oResp initState).1
      ⟨oResp.dgram, oResp.plainText, by decide⟩,
   (((c9_response_only_encrypted oHsStep initState).2 rfl (by decide))).1⟩

theorem udpSocketConnected_shape (ok : Bool) (s : AssocState) :
    (udpSocketConnected ok s).1.ping = s.ping ∧
    (udpSocketConnected ok s).1.pingTimerActive = s.pingTimerActive ∧
    (udpSocketConnected ok s).1.socketOpen = s.socketOpen ∧
    (udpSocketConnected ok s).1.connectedHandlers = s.connectedHandlers ∧
    sentSeqs (udpSocketConnected ok s).2 = [] ∧
    countStarts (udpSocketConnected ok s).2 = 1 ∧
    countResumes (udpSocketConnected ok s).2 = 1 := by
  cases ok <;>
    simp [udpSocketConnected, startHandshake, sentSeqs, countStarts, countResumes,
      List.countP_cons]

theorem fireHandlers_inv (n : Nat) :
    ∀ (oks : List Bool) (s : AssocState),
      (fireHandlers n oks s).1.ping = s.ping ∧
      (fireHandlers n oks s).1.pingTimerActive = s.pingTimerActive ∧
      (fireHandlers n oks s).1.socketOpen = s.socketOpen ∧
      sentSeqs (fireHandlers n oks s).2 = [] ∧
      countStarts (fireHandlers n oks s).2 = n ∧
      countResumes (fireHandlers n oks s).2 = n := by
  induction n with
  | zero =>
    intro oks s
    simp [fireHandlers, sentSeqs, countStarts, countResumes]
  | succ n ih =>
    intro oks s
    have hu := udpSocketConnected_shape (oks.headD true) s
    have hr := ih oks.tail (udpSocketConnected (oks.headD true) s).1
    simp only [fireHandlers, sentSeqs_append]
    refine ⟨?_, ?_, ?_, ?_, ?_, ?_⟩
    · rw [hr.1, hu.1]
    · rw [hr.2.1, hu.2.1]
    · rw [hr.2.2.1, hu.2.2.1]
    · rw [show sentSeqs (fireHandlers n oks.tail (udpSocketConnected (oks.headD true) s).1).2
            = [] from hr.2.2.2.1, hu.2.2.2.2.1]
      rfl
    · unfold countStarts at hu hr ⊢
      rw [List.countP_append, hu.2.2.2.2.2.1, hr.2.2.2.2.1]
      omega
    · unfold countResumes at hu hr ⊢
      rw [List.countP_append, hu.2.2.2.2.2.2, hr.2.2.2.2.2]
      omega

theorem run_replicate_calls (n : Nat) :
    ∀ (ok : Bool) (s : AssocState),
      (run s (List.replicate n (Input.callStartHandshake false ok))).1.connectedHandlers
        = s.connectedHandlers + n := by
  induction n with
  | zero => intro ok s; simp [run]
  | succ n ih =>
    intro ok s
    rw [List.replicate_succ]
    show (run (step s (Input.callStartHandshake false ok)).1 _).1.connectedHandlers = _
    rw [ih]
    simp [step, startHandshake]
    omega

/-- Claim C10 (confirmed): a startHandshake call made while the socket is
not yet connected only emits the info message and registers one additional
resume handler via connect (no handshake step is performed), and after n
such calls a single delivery of the socket's connected signal invokes the
udpSocketConnected resume slot n times, hence performs n doHandshake
attempts rather than one. -/
theorem c10_duplicate_handlers :
    (∀ (s : AssocState) (ok : Bool),
      startHandshake false ok s =
        ({ s with connectedHandlers := s.connectedHandlers + 1,
                  state := SpecState.ConnectingTransport },
         [Action.emit (Event.info Msg.connectingUdpSocketFirst),
          Action.connectResumeHandler])) ∧
    (∀ (n : Nat) (ok : Bool) (oks : List Bool),
      (run initState (List.replicate n (Input.callStartHandshake false ok))).1.connectedHandlers
          = n ∧
      countResumes (socketConnectedSignal oks
        (run initState (List.replicate n (Input.callStartHandshake false ok))).1).2 = n ∧
      countStarts (socketConnectedSignal oks
        (run initState (List.replicate n (Input.callStartHandshake false ok))).1).2 = n) := by
  constructor
  · intro s ok
    simp [startHandshake]
  · intro n ok oks
    have hn := run_replicate_calls n ok initState
    have hn0 : (run initState
        (List.replicate n (Input.callStartHandshake false ok))).1.connectedHandlers = n := by
      rw [hn]; simp [initState]
    refine ⟨hn0, ?_, ?_⟩
    · rw [socketConnectedSignal, hn0]
      exact (fireHandlers_inv n oks _).2.2.2.2.2
    · rw [socketConnectedSignal, hn0]
      exact (fireHandlers_inv n oks _).2.2.2.2.1

theorem step_noSend (i : Input) (s : AssocState)
    (h : sentSeqs (step s i).2 = []) : (step s i).1.ping = s.ping := by
  cases i with
  | callStartHandshake c ok =>
    cases c <;> cases ok <;> simp [step, startHandshake]
  | socketConnected oks =>
    exact (fireHandlers_inv s.connectedHandlers oks s).1
  | datagram o =>
    by_cases hso : s.socketOpen = true
    · simp only [step, hso, if_true] at h ⊢
      by_cases h1 : o.bytesRead ≤ 0
      · rw [readyRead_spurious s h1]
      · replace h1 := lt_of_not_le h1
        cases h2 : o.isEncrypted with
        | false =>
          cases h3 : o.handshakeOk with
          | false => rw [readyRead_hsFail s h1 h2 h3]
          | true =>
            cases h4 : o.encryptedAfter with
            | false => rw [readyRead_hsCont s h1 h2 h3 h4]
            | true =>
              rw [readyRead_hsDone s h1 h2 h3 h4] at h
              by_cases h5 : o.pingWritten ≤ 0
              · rw [pingTimeout_fail _ h5] at h
                simp [sentSeqs] at h
              · rw [pingTimeout_succ _ (lt_of_not_le h5)] at h
                simp [sentSeqs] at h
        | true =>
          by_cases h3 : o.plainText = []
          · cases h4 : o.remoteClosed with
            | false => rw [readyRead_emptyWarn s h1 h2 h3 h4]
            | true => rw [readyRead_remoteClose s h1 h2 h3 h4]
          · rw [readyRead_response s h1 h2 h3]
    · simp [step, hso]
  | pingTimerFire w =>
    by_cases ht : s.pingTimerActive = true
    · simp only [step, ht, if_true] at h ⊢
      by_cases h5 : w ≤ 0
      · rw [pingTimeout_fail _ h5] at h
        simp [sentSeqs] at h
      · rw [pingTimeout_succ _ (lt_of_not_le h5)] at h
        simp [sentSeqs] at h
    · simp [step, ht]
  | dtlsHandshakeTimeout ok =>
    cases ok <;> simp [step, handshakeTimeout]
  | pskRequest =>
    simp [step, pskRequired]

theorem run_noSend : ∀ (tr : List Input) (s : AssocState),
    sentSeqs (run s tr).2 = [] → (run s tr).1.ping = s.ping := by
  intro tr
  induction tr with
  | nil => intro s _; rfl
  | cons i tr ih =>
    intro s h
    simp only [run, sentSeqs_append, List.append_eq_nil] at h
    show (run (step s i).1 tr).1.ping = s.ping
    rw [ih (step s i).1 h.2, step_noSend i s h.1]

/-- Claim C2 (confirmed): at any reachable point at which no ping has yet
been sent, an inbound datagram whose handshake-continuation step reports
the engine now encrypted makes readyRead perform, in this order, the
handshake step, one info success event, the keepalive-timer activation,
and one immediate keepalive tick, whose ping carries sequence 0; the tick
happens inside the same slot, hence before any timer-driven tick can be
dispatched. -/
theorem c2_hs_completion (tr : List Input) (o : ReadOracle)
    (hpre : sentSeqs (run initState tr).2 = [])
    (h1 : 0 < o.bytesRead) (h2 : o.isEncrypted = false)
    (h3 : o.handshakeOk = true) (h4 : o.encryptedAfter = true)
    (h5 : 0 < o.pingWritten) :
    readyRead o (run initState tr).1 =
      ({ (run initState tr).1 with ping := 1, pingTimerActive := true,
                                   state := SpecState.Connected },
       [Action.engineDoHandshake (some o.dgram),
        Action.emit (Event.info Msg.encryptedEstablished),
        Action.timerStart,
        Action.sendPing 0 o.pingWritten]) := by
  have hp : (run initState tr).1.ping = 0 := run_noSend tr initState hpre
  rw [readyRead_hsDone _ h1 h2 h3 h4, pingTimeout_succ _ h5]
  simp only [hp]
  norm_num [uintMod]

/-- Witness for C2 on the empty prefix trace and the concrete
handshake-completion oracle: the first ping carries sequence 0. -/
theorem c2_hs_completion_witness :
    readyRead oHs (run initState []).1 =
      ({ (run initState []).1 with ping := 1, pingTimerActive := true,
                                   state := SpecState.Connected },
       [Action.engineDoHandshake (some oHs.dgram),
        Action.emit (Event.info Msg.encryptedEstablished),
        Action.timerStart,
        Action.sendPing 0 oHs.pingWritten]) :=
  c2_hs_completion [] oHs (by decide) (by decide) (by decide) (by decide) (by decide)
    (by decide)

theorem step_keepsInactive (i : Input) (s : AssocState)
    (ht : s.pingTimerActive = false) (he : inputEnc i = true) :
    sentSeqs (step s i).2 = [] ∧ (step s i).1.pingTimerActive = false := by
  cases i with
  | callStartHandshake c ok =>
    cases c <;> cases ok <;> simp [step, startHandshake, sentSeqs, ht]
  | socketConnected oks =>
    have h := fireHandlers_inv s.connectedHandlers oks s
    exact ⟨h.2.2.2.1, by rw [show (step s (Input.socketConnected oks)).1.pingTimerActive
      = s.pingTimerActive from h.2.1, ht]⟩
  | datagram o =>
    have h2 : o.isEncrypted = true := he
    by_cases hso : s.socketOpen = true
    · simp only [step, hso, if_true]
      by_cases h1 : o.bytesRead ≤ 0
      · rw [readyRead_spurious s h1]
        simp [sentSeqs, ht]
      · replace h1 := lt_of_not_le h1
        by_cases h3 : o.plainText = []
        · cases h4 : o.remoteClosed with
          | false =>
            rw [readyRead_emptyWarn s h1 h2 h3 h4]
            simp [sentSeqs, ht]
          | true =>
            rw [readyRead_remoteClose s h1 h2 h3 h4]
            simp [sentSeqs]
        · rw [readyRead_response s h1 h2 h3]
          simp [sentSeqs, ht]
    · simp [step, hso, sentSeqs, ht]
  | pingTimerFire w =>
    simp [step, ht, sentSeqs]
  | dtlsHandshakeTimeout ok =>
    cases ok <;> simp [step, handshakeTimeout, sentSeqs, ht]
  | pskRequest =>
    simp [step, pskRequired, sentSeqs, ht]

theorem run_keepsInactive : ∀ (tr : List Input) (s : AssocState),
    s.pingTimerActive = false → allEncrypted tr = true →
    sentSeqs (run s tr).2 = [] ∧ (run s tr).1.pingTimerActive = false := by
  intro tr
  induction tr with
  | nil => intro s ht _; exact ⟨rfl, ht⟩
  | cons i tr ih =>
    intro s ht he
    simp only [allEncrypted, List.all_cons, Bool.and_eq_true] at he
    have hstep := step_keepsInactive i s ht he.1
    have hrest := ih (step s i).1 hstep.2 he.2
    constructor
    · show sentSeqs ((step s i).2 ++ (run (step s i).1 tr).2) = []
      rw [sentSeqs_append, hstep.1, hrest.1]
      rfl
    · exact hrest.2

/-- Claim C3 (confirmed): a keepalive tick whose encrypted send returns
zero or a negative count performs exactly the failed send attempt, one
error event and the timer stop, leaves the ping counter unchanged and
transitions to Failed; and afterwards, over any further stimuli in which
the engine stays encrypted (as it does once the handshake completed), no
writeDatagramEncrypted call ever happens again, timer periods included,
because the stopped timer no longer fires and only a fresh
handshake-completion could restart it. -/
theorem c3_ping_failure (w : Int) (s : AssocState) (tr : List Input)
    (hw : w ≤ 0) (henc : allEncrypted tr = true) :
    pingTimeout w s =
      ({ s with pingTimerActive := false, state := SpecState.Failed },
       [Action.sendPing s.ping w,
        Action.emit (Event.error Msg.failedToSendPing),
        Action.timerStop]) ∧
    sentSeqs (run (pingTimeout w s).1 tr).2 = [] := by
  have hfail := pingTimeout_fail s hw
  refine ⟨hfail, ?_⟩
  have : (pingTimeout w s).1.pingTimerActive = false := by rw [hfail]
  exact (run_keepsInactive tr (pingTimeout w s).1 this henc).1

/-- Witness for C3: a failed tick at a concrete Connected state, followed
by two timer periods and an encrypted datagram, sends nothing further. -/
theorem c3_ping_failure_witness :
    pingTimeout 0 sConn =
      ({ sConn with pingTimerActive := false, state := SpecState.Failed },
       [Action.sendPing sConn.ping 0,
        Action.emit (Event.error Msg.failedToSendPing),
        Action.timerStop]) ∧
    sentSeqs (run (pingTimeout 0 sConn).1 trAfterFail).2 = [] :=
  c3_ping_failure 0 sConn trAfterFail (by decide) (by decide)

theorem run_cons (s : AssocState) (i : Input) (tr : List Input) :
    run s (i :: tr) =
      ((run (step s i).1 tr).1, (step s i).2 ++ (run (step s i).1 tr).2) := rfl

theorem step_sends (i : Input) (s : AssocState)
    (hok : sendsOk (step s i).2 = true) :
    (sentSeqs (step s i).2 = [] ∧ (step s i).1.ping = s.ping) ∨
    (sentSeqs (step s i).2 = [s.ping] ∧
      (step s i).1.ping = (s.ping + 1) % uintMod) := by
  cases i with
  | callStartHandshake c ok =>
    refine Or.inl ⟨?_, ?_⟩ <;> cases c <;> cases ok <;>
      simp [step, startHandshake, sentSeqs]
  | socketConnected oks =>
    exact Or.inl ⟨(fireHandlers_inv s.connectedHandlers oks s).2.2.2.1,
      (fireHandlers_inv s.connectedHandlers oks s).1⟩
  | datagram o =>
    by_cases hso : s.socketOpen = true
    · simp only [step, hso, if_true] at hok ⊢
      by_cases h1 : o.bytesRead ≤ 0
      · rw [readyRead_spurious s h1]
        exact Or.inl ⟨by simp [sentSeqs], rfl⟩
      · replace h1 := lt_of_not_le h1
        cases h2 : o.isEncrypted with
        | true =>
          by_cases h3 : o.plainText = []
          · cases h4 : o.remoteClosed with
            | false =>
              rw [readyRead_emptyWarn s h1 h2 h3 h4]
              exact Or.inl ⟨by simp [sentSeqs], rfl⟩
            | true =>
              rw [readyRead_remoteClose s h1 h2 h3 h4]
              exact Or.inl ⟨by simp [sentSeqs], rfl⟩
          · rw [readyRead_response s h1 h2 h3]
            exact Or.inl ⟨by simp [sentSeqs], rfl⟩
        | false =>
          cases h3 : o.handshakeOk with
          | false =>
            rw [readyRead_hsFail s h1 h2 h3]
            exact Or.inl ⟨by simp [sentSeqs], rfl⟩
          | true =>
            cases h4 : o.encryptedAfter with
            | false =>
              rw [readyRead_hsCont s h1 h2 h3 h4]
              exact Or.inl ⟨by simp [sentSeqs], rfl⟩
            | true =>
              rw [readyRead_hsDone s h1 h2 h3 h4] at hok ⊢
              by_cases h5 : o.pingWritten ≤ 0
              · rw [pingTimeout_fail _ h5] at hok
                simp [sendsOk] at hok
                omega
              · rw [pingTimeout_succ _ (lt_of_not_le h5)]
                exact Or.inr ⟨by simp [sentSeqs], rfl⟩
    · simp only [step, hso]
      exact Or.inl ⟨by simp [sentSeqs, hso], by simp [hso]⟩
  | pingTimerFire w =>
    by_cases ht : s.pingTimerActive = true
    · simp only [step, ht, if_true] at hok ⊢
      by_cases h5 : w ≤ 0
      · rw [pingTimeout_fail _ h5] at hok
        simp [sendsOk] at hok
        omega
      · rw [pingTimeout_succ _ (lt_of_not_le h5)]
        exact Or.inr ⟨by simp [sentSeqs], rfl⟩
    · simp only [step, ht]
      exact Or.inl ⟨by simp [sentSeqs, ht], by simp [ht]⟩
  | dtlsHandshakeTimeout ok =>
    refine Or.inl ⟨?_, ?_⟩ <;> cases ok <;> simp [step, handshakeTimeout, sentSeqs]
  | pskRequest =>
    exact Or.inl ⟨by simp [step, pskRequired, sentSeqs], rfl⟩

theorem run_sends : ∀ (tr : List Input) (s : AssocState), s.ping < uintMod →
    sendsOk (run s tr).2 = true →
    sentSeqs (run s tr).2 =
      (List.range (sentSeqs (run s tr).2).length).map
        (fun k => (s.ping + k) % uintMod) ∧
    (run s tr).1.ping = (s.ping + (sentSeqs (run s tr).2).length) % uintMod := by
  intro tr
  induction tr with
  | nil =>
    intro s hp _
    exact ⟨rfl, by simpa using (Nat.mod_eq_of_lt hp).symm⟩
  | cons i tr ih =>
    intro s hp hok
    rw [run_cons] at hok ⊢
    simp only [sendsOk_append, Bool.and_eq_true] at hok
    obtain ⟨hok1, hok2⟩ := hok
    simp only [sentSeqs_append]
    cases step_sends i s hok1 with
    | inl h =>
      have hp1 : (step s i).1.ping < uintMod := by rw [h.2]; exact hp
      have IH := ih (step s i).1 hp1 hok2
      rw [h.2] at IH
      rw [h.1, List.nil_append]
      exact IH
    | inr h =>
      have hp1 : (step s i).1.ping < uintMod := by
        rw [h.2]; exact Nat.mod_lt _ uintMod_pos
      have IH := ih (step s i).1 hp1 hok2
      rw [h.2] at IH
      rw [h.1, List.singleton_append]
      constructor
      · rw [List.length_cons, List.range_succ_eq_map, List.map_cons, List.map_map]
        congr 1
        · rw [Nat.add_zero, Nat.mod_eq_of_lt hp]
        · rw [IH.1, List.length_map, List.length_range]
          apply List.map_congr_left
          intro k _
          simp only [Function.comp_apply]
          rw [Nat.mod_add_mod]
          congr 1
          omega
      · rw [IH.2, List.length_cons, Nat.mod_add_mod]
        congr 1
        omega

/-- Claim C1 (corrected): the ping counter is incremented exactly by the
successful keepalive sends and by nothing else, but it is a 32-bit
unsigned, so each increment is taken modulo 2 to the 32; consequently, over
any run from the fresh association in which every keepalive send succeeds,
the sequence numbers embedded in the pings are 0, 1, 2, ... reduced modulo
2 to the 32 — which is the strictly increasing gapless sequence
0, 1, 2, ... exactly as long as at most 2 to the 32 pings have been sent;
beyond that the counter wraps back to 0 (see the counterexample). -/
theorem c1_ping_sequence :
    (∀ (i : Input) (s : AssocState), s.ping < uintMod →
      sendsOk (step s i).2 = true →
      (step s i).1.ping =
        (s.ping + (sentSeqs (step s i).2).length) % uintMod) ∧
    (∀ tr : List Input, sendsOk (run initState tr).2 = true →
      sentSeqs (run initState tr).2 =
        (List.range (sentSeqs (run initState tr).2).length).map
          (fun k => k % uintMod) ∧
      ((sentSeqs (run initState tr).2).length ≤ uintMod →
        sentSeqs (run initState tr).2 =
          List.range (sentSeqs (run initState tr).2).length)) := by
  constructor
  · intro i s hp hok
    cases step_sends i s hok with
    | inl h => rw [h.1, h.2]; simp [Nat.mod_eq_of_lt hp]
    | inr h => rw [h.1, h.2]; simp
  · intro tr hok
    have h := run_sends tr initState (by norm_num [initState, uintMod]) hok
    have h1 : sentSeqs (run initState tr).2 =
        (List.range (sentSeqs (run initState tr).2).length).map
          (fun k => k % uintMod) := by
      have := h.1
      rw [show initState.ping = 0 from rfl] at this
      simpa using this
    refine ⟨h1, ?_⟩
    intro hlen
    nth_rewrite 1 [h1]
    have hcong : ∀ k ∈ List.range (sentSeqs (run initState tr).2).length,
        k % uintMod = k := by
      intro k hk
      exact Nat.mod_eq_of_lt (lt_of_lt_of_le (List.mem_range.mp hk) hlen)
    rw [List.map_congr_left hcong, List.map_id']

/-- Witness for the amended C1: a run with three successful sends produces
exactly the sequence numbers 0, 1, 2. -/
theorem c1_ping_sequence_witness :
    sentSeqs (run initState trW).2 =
      List.range (sentSeqs (run initState trW).2).length :=
  (c1_ping_sequence.2 trW (by decide)).2 (by decide)

theorem sentSeqs_map_sendPing (f : Nat → Nat) (w : Int) (l : List Nat) :
    sentSeqs (l.map (fun k => Action.sendPing (f k) w)) = l.map f := by
  induction l with
  | nil => rfl
  | cons a l ih => simp [sentSeqs, List.filterMap_cons] at ih ⊢; exact ih

theorem sendsOk_map_sendPing (f : Nat → Nat) (l : List Nat) :
    sendsOk (l.map (fun k => Action.sendPing (f k) 1)) = true := by
  apply List.all_eq_true.mpr
  intro x hx
  obtain ⟨k, _, rfl⟩ := List.mem_map.mp hx
  rfl

theorem run_ticks : ∀ (n : Nat) (s : AssocState),
    s.pingTimerActive = true → s.ping < uintMod →
    (run s (List.replicate n (Input.pingTimerFire 1))).2 =
      (List.range n).map (fun k => Action.sendPing ((s.ping + k) % uintMod) 1) := by
  intro n
  induction n with
  | zero => intro s _ _; rfl
  | succ n ih =>
    intro s ht hp
    have hstep : step s (Input.pingTimerFire 1) = pingTimeout 1 s := by
      simp only [step, ht, if_true]
    have IH := ih { s with ping := (s.ping + 1) % uintMod } ht
      (Nat.mod_lt _ uintMod_pos)
    dsimp only at IH
    have hrun : (run s (List.replicate (n + 1) (Input.pingTimerFire 1))).2 =
        Action.sendPing s.ping 1 ::
          (run { s with ping := (s.ping + 1) % uintMod }
            (List.replicate n (Input.pingTimerFire 1))).2 := by
      rw [List.replicate_succ, run_cons, hstep, pingTimeout_succ s Int.one_pos]
      rfl
    rw [hrun, IH]
    rw [List.range_succ_eq_map, List.map_cons, List.map_map]
    congr 1
    · rw [Nat.add_zero, Nat.mod_eq_of_lt hp]
    · apply List.map_congr_left
      intro k _
      simp only [Function.comp_apply]
      have harg : ((s.ping + 1) % uintMod + k) % uintMod
          = (s.ping + Nat.succ k) % uintMod := by
        rw [Nat.mod_add_mod]
        congr 1
        omega
      rw [harg]

theorem cex_first : step initState (Input.datagram oHs) =
    ({ initState with ping := 1, pingTimerActive := true,
                      state := SpecState.Connected },
     [Action.engineDoHandshake (some oHs.dgram),
      Action.emit (Event.info Msg.encryptedEstablished),
      Action.timerStart,
      Action.sendPing 0 1]) := by
  decide

theorem cex_acts : (run initState cexTrace).2 =
    [Action.engineDoHandshake (some oHs.dgram),
     Action.emit (Event.info Msg.encryptedEstablished),
     Action.timerStart,
     Action.sendPing 0 1] ++
    (List.range uintMod).map (fun k => Action.sendPing ((1 + k) % uintMod) 1) := by
  have h1 : (run initState cexTrace).2 =
      [Action.engineDoHandshake (some oHs.dgram),
       Action.emit (Event.info Msg.encryptedEstablished),
       Action.timerStart,
       Action.sendPing 0 1] ++
      (run { initState with ping := 1, pingTimerActive := true,
                            state := SpecState.Connected }
        (List.replicate uintMod (Input.pingTimerFire 1))).2 := by
    rw [show cexTrace
          = Input.datagram oHs :: List.replicate uintMod (Input.pingTimerFire 1)
        from rfl, run_cons, cex_first]
  rw [h1]
  rw [run_ticks uintMod
    { initState with ping := 1, pingTimerActive := true,
                     state := SpecState.Connected } rfl (by decide)]

theorem cex_sendsOk : sendsOk (run initState cexTrace).2 = true := by
  rw [cex_acts, sendsOk_append, sendsOk_map_sendPing]
  decide

theorem cex_sentSeqs : sentSeqs (run initState cexTrace).2 =
    0 :: (List.range uintMod).map (fun k => (1 + k) % uintMod) := by
  rw [cex_acts, sentSeqs_append, sentSeqs_map_sendPing]
  rfl

theorem wrap_ne (m : Nat) (hm : 0 < m) :
    (0 :: (List.range m).map (fun k => (1 + k) % m)) ≠ List.range (m + 1) := by
  intro h
  rw [List.range_succ_eq_map] at h
  simp only [List.cons.injEq, true_and] at h
  have h3 := congrArg (fun l => l[m - 1]?) h
  simp only [List.getElem?_map, List.getElem?_range (show m - 1 < m by omega),
    Option.map_some'] at h3
  have h4 : (1 + (m - 1)) % m = Nat.succ (m - 1) := by
    exact Option.some.inj h3
  rw [show 1 + (m - 1) = m by omega, Nat.mod_self] at h4
  omega

/-- Counterexample to C1 as stated: in the concrete run cexTrace the
handshake completes and then the keepalive timer fires 2 to the 32 times,
every single send succeeding; yet the sequence numbers embedded in the
pings are not the strictly increasing sequence 0, 1, 2, ..., because the
unsigned counter wraps and the last ping carries sequence 0 again. -/
theorem c1_counterexample :
    sendsOk (run initState cexTrace).2 = true ∧
    sentSeqs (run initState cexTrace).2 ≠
      List.range (sentSeqs (run initState cexTrace).2).length := by
  refine ⟨cex_sendsOk, ?_⟩
  rw [cex_sentSeqs]
  rw [List.length_cons, List.length_map, List.length_range]
  exact wrap_ne uintMod uintMod_pos

end DtlsClient
